import Mathlib

/-!
Verification of the Pricelist Structure Inference & Product Reconciliation
Engine of the `ai-quoting` backend.  The Python sources are shallowly
embedded: strings are Lean `String`s manipulated through explicit ASCII
character functions mirroring the regular expressions of the source, floats
are exact rationals (`ℚ`), Python dicts keyed by strings are association
lists, and `None` is `Option.none`.  Each definition is named after the
Python function or class it embeds.
-/

namespace AIQuoting

/-! ### ASCII / Python string helpers -/

/-- Python regex `\s` (ASCII whitespace, the only kind appearing in the data). -/
def isWS (c : Char) : Bool :=
  c == ' ' || c == '\t' || c == '\n' || c == '\r' || c == '\x0b' || c == '\x0c'

def isUpperA (c : Char) : Bool := 'A' ≤ c && c ≤ 'Z'

def isLowerA (c : Char) : Bool := 'a' ≤ c && c ≤ 'z'

def isDigitA (c : Char) : Bool := '0' ≤ c && c ≤ '9'

def isAlphaA (c : Char) : Bool := isUpperA c || isLowerA c

/-- Python `str.lower()` (ASCII range, as in the data). -/
def lowerStr (s : String) : String := String.mk (s.toList.map Char.toLower)

/-- Python `str.upper()` (ASCII range, as in the data). -/
def upperStr (s : String) : String := String.mk (s.toList.map Char.toUpper)

/-- Python `str.strip()`. -/
def stripStr (s : String) : String :=
  String.mk (((s.toList.dropWhile isWS).reverse.dropWhile isWS).reverse)

def isPrefixL : List Char → List Char → Bool
  | [], _ => true
  | _ :: _, [] => false
  | a :: as, b :: bs => a == b && isPrefixL as bs

def containsL (needle : List Char) : List Char → Bool
  | [] => needle.isEmpty
  | c :: t => isPrefixL needle (c :: t) || containsL needle t

/-- Python `needle in hay` on strings (substring test). -/
def containsStr (hay needle : String) : Bool := containsL needle.toList hay.toList

/-- Python `str.startswith`. -/
def startsWithStr (s pre : String) : Bool := isPrefixL pre.toList s.toList

/-- Leftmost occurrence of `p` in the list; returns the remainder after it. -/
def findDrop (p : List Char) : List Char → Option (List Char)
  | [] => if p.isEmpty then some [] else none
  | c :: t => if isPrefixL p (c :: t) then some ((c :: t).drop p.length) else findDrop p t

/-- Python `re.search` for a pattern of literal parts joined by `.*`: the parts must
occur in order. -/
def searchPartsL : List (List Char) → List Char → Bool
  | [], _ => true
  | p :: ps, hay =>
    match findDrop p hay with
    | none => false
    | some rest => searchPartsL ps rest

def searchParts (parts : List String) (s : String) : Bool :=
  searchPartsL (parts.map String.toList) s.toList

/-- Split on runs of whitespace, discarding empty pieces. -/
def wordsAux : List Char → List Char → List (List Char)
  | [], acc => if acc.isEmpty then [] else [acc.reverse]
  | c :: cs, acc =>
    if isWS c then
      if acc.isEmpty then wordsAux cs [] else acc.reverse :: wordsAux cs []
    else wordsAux cs (c :: acc)

def wordsWS (l : List Char) : List (List Char) := wordsAux l []

def joinWords : List (List Char) → List Char
  | [] => []
  | [w] => w
  | w :: ws => w ++ ' ' :: joinWords ws

/-! ### `ProductMatcher.normalize_search_term` and `create_search_variants`
(`app/db/sqlantern.py`) -/

/-- Python `normalize_search_term`: lowercase, drop `[^a-zA-Z0-9\s]`, collapse
whitespace runs to single spaces, strip. -/
def normalizeSearchTerm (term : String) : String :=
  String.mk (joinWords (wordsWS
    ((lowerStr term).toList.filter fun c => isAlphaA c || isDigitA c || isWS c)))

/-- Python `re.sub(r'\s+', '-', s)`, with structural fuel (`fuel ≥ length` makes
the fuel-out arm unreachable). -/
def subWsDashGo : Nat → List Char → List Char
  | 0, l => l
  | _ + 1, [] => []
  | fuel + 1, c :: cs =>
    if isWS c then '-' :: subWsDashGo fuel (cs.dropWhile isWS) else c :: subWsDashGo fuel cs

def subWsDash (s : String) : String := String.mk (subWsDashGo s.toList.length s.toList)

/-- Python `re.sub(r'[-\s]+', '', s)`. -/
def removeDashWs (s : String) : String :=
  String.mk (s.toList.filter fun c => !(c == '-' || isWS c))

/-- Python `re.sub(r'[-_]', ' ', s)`. -/
def dashUnderscoreToSpace (s : String) : String :=
  String.mk (s.toList.map fun c => if c == '-' || c == '_' then ' ' else c)

/-- Match `avr\s*x(\d+)` at the head of the list; on success return the
captured digits and the remainder. -/
def matchAvrX (l : List Char) : Option (List Char × List Char) :=
  if isPrefixL ['a', 'v', 'r'] l then
    if isPrefixL ['x'] ((l.drop 3).dropWhile isWS) then
      if ((((l.drop 3).dropWhile isWS).drop 1).takeWhile isDigitA).isEmpty then none
      else
        some ((((l.drop 3).dropWhile isWS).drop 1).takeWhile isDigitA,
          (((l.drop 3).dropWhile isWS).drop 1).dropWhile isDigitA)
    else none
  else none

/-- Python `re.sub(r'avr\s*x(\d+)', r'avr-x\1', s)` applied to every occurrence,
left to right, with structural fuel (`matchAvrX_length` makes the fuel-out
arm unreachable when `fuel ≥ length`). -/
def subAvrXGo : Nat → List Char → List Char
  | 0, l => l
  | _ + 1, [] => []
  | fuel + 1, c :: cs =>
    match matchAvrX (c :: cs) with
    | some (ds, rest) => 'a' :: 'v' :: 'r' :: '-' :: 'x' :: (ds ++ subAvrXGo fuel rest)
    | none => c :: subAvrXGo fuel cs

def subAvrX (s : String) : String := String.mk (subAvrXGo s.toList.length s.toList)

/-- Match `avr-x(\d+)` at the head of the list. -/
def matchAvrDashX (l : List Char) : Option (List Char × List Char) :=
  if isPrefixL ['a', 'v', 'r', '-', 'x'] l then
    if ((l.drop 5).takeWhile isDigitA).isEmpty then none
    else some ((l.drop 5).takeWhile isDigitA, (l.drop 5).dropWhile isDigitA)
  else none

/-- Python `re.sub(r'avr-x(\d+)', r'avrx\1', s)`, with structural fuel. -/
def subAvrDashXGo : Nat → List Char → List Char
  | 0, l => l
  | _ + 1, [] => []
  | fuel + 1, c :: cs =>
    match matchAvrDashX (c :: cs) with
    | some (ds, rest) => 'a' :: 'v' :: 'r' :: 'x' :: (ds ++ subAvrDashXGo fuel rest)
    | none => c :: subAvrDashXGo fuel cs

def subAvrDashX (s : String) : String := String.mk (subAvrDashXGo s.toList.length s.toList)

/-- The final duplicate-removal loop: keep non-empty first occurrences
(`seen` is the output accumulated so far). -/
def dedupNE : List String → List String → List String
  | [], _ => []
  | v :: vs, seen =>
    if v ≠ "" ∧ ¬ v ∈ seen then v :: dedupNE vs (v :: seen)
    else dedupNE vs seen

/-- Python `ProductMatcher.create_search_variants`. -/
def createSearchVariants (query : String) : List String :=
  let normalized := normalizeSearchTerm query
  let withDashes := subWsDash normalized
  let withoutDashes := removeDashWs normalized
  let withSpaces := dashUnderscoreToSpace normalized
  let base := [query, query, normalized, withDashes, withoutDashes, withSpaces]
  let all := base ++
    (if containsStr normalized "avr" then [subAvrX normalized, subAvrDashX normalized] else [])
  dedupNE all []

/-! ### Pricing (`ai_training_engine.py`) -/

/-- Python `PricingConfig` (a pydantic model with *no* range validators: any float
is accepted for `vat_rate` and `markup_percentage`). -/
structure PricingConfig where
  price_type : String := "cost_excl_vat"
  vat_rate : ℚ := 15 / 100
  markup_percentage : ℚ := 40 / 100
  supplier_name : String := ""
  currency : String := "ZAR"
deriving DecidableEq, Repr

/-- The dict returned by `_calculate_prices`; a key absent from the dict is
`none`. -/
structure CalculatedPrices where
  cost_excl_vat : Option ℚ := none
  cost_incl_vat : Option ℚ := none
  retail_incl_vat : Option ℚ := none
  margin_percentage : Option ℚ := none
deriving DecidableEq, Repr

/-- Python truthiness of an optional number (`None` and `0` are falsy). -/
def pyTruthyQ : Option ℚ → Bool
  | none => false
  | some x => x != 0

/-- The `prices` dict of `_calculate_prices` before the margin step.
Arithmetic is exact (`ℚ`); `/` is Lean's total rational division (the
source only divides by `1+vat` / `1+markup`, which the claims keep
nonzero). -/
def calcBase (original_price : ℚ) (config : PricingConfig) : CalculatedPrices :=
  if config.price_type = "cost_excl_vat" then
    { cost_excl_vat := some original_price
      cost_incl_vat := some (original_price * (1 + config.vat_rate))
      retail_incl_vat :=
        some (original_price * (1 + config.vat_rate) * (1 + config.markup_percentage)) }
  else if config.price_type = "cost_incl_vat" then
    { cost_incl_vat := some original_price
      cost_excl_vat := some (original_price / (1 + config.vat_rate))
      retail_incl_vat := some (original_price * (1 + config.markup_percentage)) }
  else if config.price_type = "retail_incl_vat" then
    { retail_incl_vat := some original_price
      cost_incl_vat := some (original_price / (1 + config.markup_percentage))
      cost_excl_vat :=
        some (original_price / (1 + config.markup_percentage) / (1 + config.vat_rate)) }
  else {}

/-- Python `EnhancedDocumentIntelligence._calculate_prices`. -/
def calculatePrices (original_price : ℚ) (config : PricingConfig) : CalculatedPrices :=
  if pyTruthyQ (calcBase original_price config).retail_incl_vat &&
      pyTruthyQ (calcBase original_price config).cost_incl_vat then
    { calcBase original_price config with
      margin_percentage :=
        some (((calcBase original_price config).retail_incl_vat.getD 0 -
            (calcBase original_price config).cost_incl_vat.getD 0) /
          (calcBase original_price config).retail_incl_vat.getD 0 * 100) }
  else calcBase original_price config

/-- Modelled from the spec: the inverse formula for each `price_type`
(§4.2), re-deriving the source value from the computed triple; used only to
state the round-trip guarantee against `calculatePrices`. -/
def specInverseSource (pr : CalculatedPrices) (config : PricingConfig) : Option ℚ :=
  if config.price_type = "cost_excl_vat" then
    pr.cost_incl_vat.map (· / (1 + config.vat_rate))
  else if config.price_type = "cost_incl_vat" then
    pr.cost_excl_vat.map (· * (1 + config.vat_rate))
  else if config.price_type = "retail_incl_vat" then
    pr.cost_incl_vat.map (· * (1 + config.markup_percentage))
  else none

/-- Value of a digit string. -/
def digitsToNat (l : List Char) : Nat :=
  l.foldl (fun acc c => acc * 10 + (c.toNat - '0'.toNat)) 0

/-- Fixed-point decimal parse, mirroring Python `float()` on the decimal
numerals occurring in price cells (exponent / inf / nan forms, which never
appear in price data, are treated as parse failures). -/
def parseUnsignedDecimal (l : List Char) : Option ℚ :=
  let ip := l.takeWhile isDigitA
  match l.dropWhile isDigitA with
  | [] => if ip.isEmpty then none else some (digitsToNat ip : ℚ)
  | '.' :: fp =>
    if fp.all isDigitA && !(ip.isEmpty && fp.isEmpty) then
      some ((digitsToNat ip : ℚ) + (digitsToNat fp : ℚ) / (10 : ℚ) ^ fp.length)
    else none
  | _ => none

def parseDecimal (s : String) : Option ℚ :=
  match s.toList with
  | '-' :: rest => (parseUnsignedDecimal rest).map Neg.neg
  | '+' :: rest => parseUnsignedDecimal rest
  | l => parseUnsignedDecimal l

/-- Characters stripped by `re.sub(r'[R$€£\s,]', '', ...)`. -/
def isCurrencyJunk (c : Char) : Bool :=
  c == 'R' || c == '$' || c == '€' || c == '£' || c == ',' || isWS c

/-- Python `EnhancedDocumentIntelligence._parse_price`: sentinel or unparseable
text yields `0`. -/
def parsePriceEngine (price_str : String) : ℚ :=
  if price_str = "" || upperStr price_str ∈ ["P.O.R", "POA", "CALL", "N/A"] then 0
  else
    match parseDecimal (String.mk (price_str.toList.filter fun c => !isCurrencyJunk c)) with
    | some q => q
    | none => 0

/-! ### Association lists (Python `dict` keyed by strings, insertion order) -/

def alookup {β : Type} : List (String × β) → String → Option β
  | [], _ => none
  | (k', v) :: t, k => if k' = k then some v else alookup t k

def aupdate {β : Type} : List (String × β) → String → β → List (String × β)
  | [], _, _ => []
  | (k', v') :: t, k, v => if k' = k then (k', v) :: t else (k', v') :: aupdate t k v

/-- Python `d[k] = v`: replace in place if present, else append. -/
def aupsert {β : Type} (m : List (String × β)) (k : String) (v : β) : List (String × β) :=
  if (alookup m k).isSome then aupdate m k v else m ++ [(k, v)]

/-! ### `ProductMatcher` deduplication (`app/db/sqlantern.py`) -/

/-- One raw catalog row as consumed by `deduplicate_products` (the fields the
function reads from the SQL row dict). -/
structure Product where
  name : String
  model : String
  manufacturer : String
  category_name : String
  price : ℚ
  special_price : Option ℚ
  quantity : ℤ
deriving DecidableEq, Repr

def knownBrands : List String :=
  ["denon", "yamaha", "marantz", "onkyo", "pioneer", "sony", "bose", "jbl", "polk"]

/-- Python `generate_product_fingerprint`.  The source takes the first 12 hex chars
of the MD5 of the cleaned key string; only equality of fingerprints is ever
used, so the digest is modelled as the cleaned key string itself. -/
def fingerprint (p : Product) : String :=
  let model := normalizeSearchTerm p.model
  let name := normalizeSearchTerm p.name
  let brand :=
    if p.manufacturer ≠ "" then lowerStr p.manufacturer
    else
      match knownBrands.find? (fun b => containsStr name b) with
      | some b => b
      | none => ""
  String.mk ((lowerStr (brand ++ "_" ++ model)).toList.filter
    fun c => isAlphaA c || isDigitA c || c == '_')

/-- The record held per fingerprint: the winning row dict plus its
accumulated `all_categories` list. -/
structure DedupRecord where
  product : Product
  all_categories : List String
deriving DecidableEq, Repr

/-- The `should_replace` decision of `deduplicate_products` (incoming row
`p` against stored row `ex`); `current_special`/`existing_special` are the
Python-truthiness tests of the special prices. -/
def shouldReplace (p ex : Product) : Bool :=
  if pyTruthyQ p.special_price && !pyTruthyQ ex.special_price then true
  else if pyTruthyQ p.special_price && pyTruthyQ ex.special_price &&
      p.special_price.getD 0 < ex.special_price.getD 0 then true
  else if !pyTruthyQ p.special_price && !pyTruthyQ ex.special_price then
    if p.quantity > 0 && ex.quantity ≤ 0 then true
    else if p.quantity > 0 && ex.quantity > 0 && p.price < ex.price then true
    else false
  else false

/-- Category-union step: append the incoming category if absent. -/
def stepCats (p : Product) (ex : DedupRecord) : List String :=
  if p.category_name ∈ ex.all_categories then ex.all_categories
  else ex.all_categories ++ [p.category_name]

/-- One iteration of the `for product in products` loop. -/
def dedupStep (m : List (String × DedupRecord)) (p : Product) : List (String × DedupRecord) :=
  let fp := fingerprint p
  match alookup m fp with
  | none => m ++ [(fp, ⟨p, [p.category_name]⟩)]
  | some ex =>
    if shouldReplace p ex.product then aupdate m fp ⟨p, stepCats p ex⟩
    else aupdate m fp ⟨ex.product, stepCats p ex⟩

/-- The `unique_products` dict after folding all rows. -/
def dedupMap (l : List Product) : List (String × DedupRecord) :=
  l.foldl dedupStep []

/-- Output record: the winning row with category display info attached. -/
structure OutputProduct where
  product : Product
  all_categories : List String
  category_count : Nat
  categories_display : String
deriving DecidableEq, Repr

def joinCommaSep : List String → String
  | [] => ""
  | [s] => s
  | s :: t => s ++ ", " ++ joinCommaSep t

def categoriesDisplay (cats : List String) : String :=
  let d := joinCommaSep (cats.take 3)
  if cats.length > 3 then d ++ " +" ++ toString (cats.length - 3) ++ " more" else d

def finalizeRecord (r : DedupRecord) : OutputProduct :=
  { product := r.product
    all_categories := r.all_categories
    category_count := r.all_categories.length
    categories_display := categoriesDisplay r.all_categories }

/-- Python `ProductMatcher.deduplicate_products`. -/
def deduplicateProducts (l : List Product) : List OutputProduct :=
  (dedupMap l).map fun kv => finalizeRecord kv.2

/-- The fingerprint has an entry in the catalog map. -/
def HasFp (m : List (String × DedupRecord)) (f : String) : Prop :=
  ∃ r, alookup m f = some r

/-- Category `c` belongs to the category set stored for fingerprint `f`. -/
def CatMem (m : List (String × DedupRecord)) (f c : String) : Prop :=
  ∃ r, alookup m f = some r ∧ c ∈ r.all_categories

/-! ### Grid model (a pandas `DataFrame` read with `header=None`) -/

/-- A cell is `none` for NaN (blank in the sheet), otherwise its text. -/
structure Grid where
  ncols : Nat
  rows : List (List (Option String))
deriving DecidableEq, Repr

def Grid.nrows (g : Grid) : Nat := g.rows.length

def Grid.row (g : Grid) (r : Nat) : List (Option String) := (g.rows.get? r).getD []

def Grid.cell (g : Grid) (r c : Nat) : Option String := ((g.rows.get? r).bind (·.get? c)).join

/-! ### `ExcelStructureAnalyzer` (`ai_training_engine.py`) -/

/-- Python `df.astype(str)` turns NaN into the string `"nan"`. -/
def engineCellStr : Option String → String
  | none => "nan"
  | some s => s

/-- Python `re.match(r'^[A-Z][A-Z0-9\-_&\s]{2,20}$', s)`. -/
def matchBrandPat1 (s : String) : Bool :=
  match s.toList with
  | [] => false
  | c :: rest =>
    isUpperA c && decide (2 ≤ rest.length) && decide (rest.length ≤ 20) &&
      rest.all fun d => isUpperA d || isDigitA d || d == '-' || d == '_' || d == '&' || isWS d

/-- Python `re.match(r'^[A-Z]{2,}[\s\-][A-Z0-9]+$', s)`. -/
def matchBrandPat2 (s : String) : Bool :=
  let l := s.toList
  let us := l.takeWhile isUpperA
  let rest := l.dropWhile isUpperA
  decide (2 ≤ us.length) &&
    match rest with
    | [] => false
    | c :: rest2 =>
      (isWS c || c == '-') && !rest2.isEmpty && rest2.all fun d => isUpperA d || isDigitA d

/-- The brand test of `_detect_brands_in_row` on the stripped, upper-cased
cell text. -/
def isBrandCellEngine (vs : String) : Bool :=
  (matchBrandPat1 vs || matchBrandPat2 vs) &&
    decide (3 ≤ vs.length) && !startsWithStr vs "UPDATED" &&
    !containsStr vs "PRICE" && !containsStr vs "CODE" &&
    !containsStr vs "STOCK" && !containsStr vs "ITEM"

/-- Python `_detect_brands_in_row`: detected brand names with their column index. -/
def detectBrandsInRow (row : List (Option String)) : List (String × Nat) :=
  row.enum.filterMap fun ic =>
    let s0 := stripStr (engineCellStr ic.2)
    if s0 = "" then none
    else
      let vs := upperStr s0
      if isBrandCellEngine vs then some (vs, ic.1) else none

/-- The brand-row scan of `detect_excel_structure` (first of rows
`0..min(5, nrows)` containing at least two brands). -/
def findBrandRow (g : Grid) : Option (Nat × List (String × Nat)) :=
  (List.range (min 5 g.nrows)).findSome? fun i =>
    let bs := detectBrandsInRow (g.row i)
    if 2 ≤ bs.length then some (i, bs) else none

/-- The per-brand column dict built by `_map_brand_columns` /
`_detect_simple_columns`; an absent key is `none`. -/
structure EngineCols where
  product_code : Option Nat := none
  price : Option Nat := none
  retail_price : Option Nat := none
deriving DecidableEq, Repr

def engineColsNonempty (c : EngineCols) : Bool :=
  c.product_code.isSome || c.price.isSome || c.retail_price.isSome

/-- Python `_map_brand_columns`: scan 5 columns to the right of each brand in the
row below the brand row. -/
def mapBrandColumnsEngine (g : Grid) (brandRow : Nat) (brands : List (String × Nat)) :
    List (String × EngineCols) :=
  if brandRow + 1 < g.nrows then
    brands.foldl
      (fun acc nb =>
        let cols := (List.range 5).foldl
          (fun bc off =>
            let ci := nb.2 + off
            if ci < g.ncols then
              let hv := lowerStr (stripStr (engineCellStr (g.cell (brandRow + 1) ci)))
              if containsStr hv "stock" || containsStr hv "code" || containsStr hv "item" then
                { bc with product_code := some ci }
              else if containsStr hv "price" || containsStr hv "cost" then
                { bc with price := some ci }
              else if containsStr hv "rrp" || containsStr hv "retail" then
                { bc with retail_price := some ci }
              else bc
            else bc)
          {}
        if engineColsNonempty cols then aupsert acc nb.1 cols else acc)
      []
  else []

/-- Python `_find_data_start_row` (single-brand path): first of rows
`0..min(10, nrows)` with at least two non-empty cells, else `0`. -/
def findDataStartRow (g : Grid) : Nat :=
  ((List.range (min 10 g.nrows)).find? fun i =>
    2 ≤ ((g.row i).filter fun c => stripStr (engineCellStr c) ≠ "").length).getD 0

def enginePricePatterns : List (List String) :=
  [["price", "excl", "vat"], ["price", "incl", "vat"], ["cost", "excl"], ["cost", "incl"],
   ["rrp"], ["retail"], ["selling", "price"], ["unit", "price"], ["list", "price"]]

/-- Python `_detect_simple_columns`.  The product check uses Python `in`
(literal substring of the *pattern text*, dots included); the price check
uses `re.search`. -/
def detectSimpleColumns (g : Grid) : EngineCols :=
  (List.range (min 3 g.nrows)).foldl
    (fun acc i =>
      (g.row i).enum.foldl
        (fun acc ic =>
          let vs := lowerStr (stripStr (engineCellStr ic.2))
          if ["stock.*code", "product.*code", "item.*code", "model", "sku"].any
              (fun pat => containsStr vs pat) then
            { acc with product_code := some ic.1 }
          else if enginePricePatterns.any (fun parts => searchParts parts vs) then
            { acc with price := some ic.1 }
          else acc)
        acc)
    {}

/-- The structure dict returned by `detect_excel_structure`.  Python stores
either the brand-keyed dict (multi-brand) or the flat dict (single) under
the one key `"columns"`; the two shapes are held in separate fields here. -/
structure EngineStructure where
  layout : String
  data_start_row : Nat
  brands : List (String × Nat)
  brand_columns : List (String × EngineCols)
  simple_columns : EngineCols
deriving DecidableEq, Repr

/-- Python `ExcelStructureAnalyzer.detect_excel_structure`. -/
def detectExcelStructure (g : Grid) : EngineStructure :=
  match findBrandRow g with
  | some ib =>
    { layout := "multi_brand", data_start_row := ib.1 + 2, brands := ib.2
      brand_columns := mapBrandColumnsEngine g ib.1 ib.2, simple_columns := {} }
  | none =>
    { layout := "single", data_start_row := findDataStartRow g, brands := []
      brand_columns := [], simple_columns := detectSimpleColumns g }

/-- A product dict produced by `_extract_multi_brand_data` (the `**prices`
splat is held as a nested field). -/
structure EngineProduct where
  product_code : String
  brand : String
  supplier : String
  original_price : ℚ
  price_type : String
  prices : CalculatedPrices
  currency : String
  row : Nat
deriving DecidableEq, Repr

/-- Python `EnhancedDocumentIntelligence._extract_multi_brand_data`: rows with an
empty/sentinel price cell, or whose parsed price is `≤ 0`, are skipped
(`continue`), not retained. -/
def extractMultiBrandData (g : Grid) (columns : List (String × EngineCols))
    (dataStart : Nat) (config : PricingConfig) : List EngineProduct :=
  columns.foldr
    (fun bc acc =>
      match bc.2.product_code, bc.2.price with
      | some pcol, some prcol =>
        ((List.range' dataStart (g.nrows - dataStart)).filterMap fun i =>
          match g.cell i pcol, g.cell i prcol with
          | some pcv, some prv =>
            let code := stripStr pcv
            let prs := stripStr prv
            if code = "" || prs = "" || upperStr prs ∈ ["P.O.R", "POA", "CALL"] ||
                upperStr code ∈ ["STOCK CODE", "ITEM CODE"] then none
            else if parsePriceEngine prs ≤ 0 then none
            else
              some { product_code := code, brand := bc.1, supplier := config.supplier_name
                     original_price := parsePriceEngine prs, price_type := config.price_type
                     prices := calculatePrices (parsePriceEngine prs) config
                     currency := config.currency, row := i + 1 }
          | _, _ => none) ++ acc
      | _, _ => acc)
    []

/-! ### `SmartColumnDetector` (`app/services/smart_column_detector.py`) -/

/-- Python `SmartColumnDetector._parse_price`: `None` for sentinel or unparseable
text (it is the Unpriced outcome, not an error). -/
def parsePriceSmart (price_text : String) : Option ℚ :=
  if price_text = "" || upperStr price_text ∈ ["P.O.R", "POA", "CALL", "TBC", "NAN"] then none
  else parseDecimal (String.mk (price_text.toList.filter fun c => !isCurrencyJunk c))

/-- Python `price_clean` of `_extract_brand_products`: the stripped text of the
price cell, `""` when the cell is NaN. -/
def priceCleanOf (g : Grid) (r pc : Nat) : String :=
  match g.cell r pc with
  | none => ""
  | some t => stripStr t

/-- The per-brand mapping dict built by `_identify_column_types`. -/
structure BrandMapping where
  product_code_column : Option Nat := none
  price_column : Option Nat := none
  additional_columns : List (Nat × String) := []
deriving DecidableEq, Repr

/-- Python truthiness of `mapping.get(...)`: `None` and the integer `0`
are both falsy. -/
def pyFalsyCol : Option Nat → Bool
  | none => true
  | some n => n == 0

/-- The structure dict consumed by `extract_products_from_structure`
(the entries that function and `_validate_structure` read). -/
structure SmartStructure where
  layout_type : String
  brands_detected : List String
  column_mapping : List (String × BrandMapping)
  data_start_row : Nat
  is_valid : Bool
deriving DecidableEq, Repr

/-- Python `SmartColumnDetector._validate_structure` (note: it tests the columns
with `is not None`, unlike the truthiness test used during extraction). -/
def validateStructure (brands : List String) (mapping : List (String × BrandMapping)) : Bool :=
  if brands.isEmpty then false
  else
    0 < (brands.filter fun b =>
      let m := (alookup mapping b).getD {}
      m.product_code_column.isSome && m.price_column.isSome).length

/-- One product dict of `_extract_brand_products`. -/
structure SmartProduct where
  brand : String
  product_code : String
  raw_price : String
  parsed_price : Option ℚ
  row_index : Nat
  code_column : Nat
  price_column : Nat
deriving DecidableEq, Repr

/-- The body of the row loop of `_extract_brand_products` (a `continue`
is `none`). -/
def extractRowSmart (g : Grid) (brand : String) (codeCol priceCol r : Nat) :
    Option SmartProduct :=
  if codeCol < g.ncols then
    if priceCol < g.ncols then
      match g.cell r codeCol with
      | none => none
      | some pcs =>
        if stripStr pcs = "" then none
        else if stripStr pcs = "" then none
        else if lowerStr (stripStr pcs) ∈ ["nan", "none", ""] then none
        else
          some { brand := brand, product_code := stripStr pcs
                 raw_price := priceCleanOf g r priceCol
                 parsed_price := parsePriceSmart (priceCleanOf g r priceCol), row_index := r
                 code_column := codeCol, price_column := priceCol }
    else none
  else none

/-- Python `SmartColumnDetector._extract_brand_products`.  When a mapping value is
`None`, the `col < len(df.columns)` comparison raises `TypeError` on every
row and the per-row `except` swallows it, so nothing is extracted. -/
def extractBrandProducts (g : Grid) (brand : String) (mapping : BrandMapping)
    (startRow : Nat) : List SmartProduct :=
  match mapping.product_code_column, mapping.price_column with
  | some cc, some pc =>
    (List.range' startRow (g.nrows - startRow)).filterMap (extractRowSmart g brand cc pc)
  | _, _ => []

/-- The contribution of one brand to `extract_products_from_structure`.
The guard uses Python truthiness (`not mapping.get(...)`), so a column
index of `0` is treated like a missing column and the brand is skipped. -/
def brandProductsFor (g : Grid) (s : SmartStructure) (b : String) : List SmartProduct :=
  let m := (alookup s.column_mapping b).getD {}
  if pyFalsyCol m.product_code_column || pyFalsyCol m.price_column then []
  else extractBrandProducts g b m s.data_start_row

/-- Python `SmartColumnDetector.extract_products_from_structure`. -/
def extractProductsFromStructure (g : Grid) (s : SmartStructure) : List SmartProduct :=
  if !s.is_valid then []
  else s.brands_detected.foldr (fun b acc => brandProductsFor g s b ++ acc) []

/-- The `brand_patterns` list of `SmartColumnDetector.__init__` — literal
brand names used with `re.search`, i.e. substring tests (the
`pattern.replace(r'\.?\?', '')` cleanup is the identity on every entry). -/
def smartBrandPatterns : List String :=
  ["YEALINK", "JABRA", "DNAKE", "CALL4TEL", "LG", "SHELLY",
   "MIKROTIK", "ZYXEL", "TP-LINK", "VILO", "CAMBIUM", "BLUETTI",
   "MOTOROLA", "NEAT", "LOGITECH", "TELRAD", "HUAWEI", "TELTONICA",
   "SAMSUNG", "NETGOY", "MINIX"]

/-- The inner cell loop of `SmartColumnDetector._find_brand_headers`: one
`(brand, column)` entry per matching pattern per non-NaN cell (the source
has no `break`, so a cell matching several patterns contributes several
entries); the cell text is upper-cased, then stripped. -/
def detectRowBrandsSmart (row : List (Option String)) : List (String × Nat) :=
  row.enum.flatMap fun ic =>
    match ic.2 with
    | none => []
    | some v =>
      let cs := stripStr (upperStr v)
      smartBrandPatterns.filterMap fun pat =>
        if containsStr cs pat then some (pat, ic.1) else none

/-- The dict returned by `SmartColumnDetector._find_brand_headers`
(column bounds as `ℤ`, since `row_brands[i+1]["column"] - 1` may go
negative for a brand in column 0). -/
structure SmartHeaderInfo where
  brands_detected : List String
  brand_column_ranges : List (String × (ℤ × ℤ × Nat))
  header_rows : List Nat
  data_start_row : Nat
deriving DecidableEq, Repr

/-- The per-row `brand_column_ranges` update of `_find_brand_headers`:
`end_col` is the next brand's column minus one, or `start_col + 3` for the
last brand of the row. -/
def rowBrandRanges (row_brands : List (String × Nat)) (row_idx : Nat) :
    List (String × (ℤ × ℤ × Nat)) :=
  row_brands.enum.map fun ib =>
    let endCol : ℤ :=
      match row_brands.get? (ib.1 + 1) with
      | some nb => (nb.2 : ℤ) - 1
      | none => (ib.2.2 : ℤ) + 3
    (ib.2.1, ((ib.2.2 : ℤ), endCol, row_idx))

/-- Python `SmartColumnDetector._find_brand_headers`: scan the first
`min(5, nrows)` rows; every row containing a brand is a header row, and
`data_start_row = max(header_rows) + 1` when any header row was found,
else `2` — NOT brand row + 2. -/
def findBrandHeaders (g : Grid) : SmartHeaderInfo :=
  let acc := (List.range (min 5 g.nrows)).foldl
    (fun acc row_idx =>
      let row_brands := detectRowBrandsSmart (g.row row_idx)
      let bd := row_brands.foldl
        (fun bd nb => if nb.1 ∈ bd then bd else bd ++ [nb.1]) acc.brands_detected
      if row_brands.isEmpty then { acc with brands_detected := bd }
      else
        { brands_detected := bd
          header_rows := acc.header_rows ++ [row_idx]
          brand_column_ranges := (rowBrandRanges row_brands row_idx).foldl
            (fun m kv => aupsert m kv.1 kv.2) acc.brand_column_ranges
          data_start_row := 0 })
    (⟨[], [], [], 0⟩ : SmartHeaderInfo)
  { acc with
    data_start_row :=
      match acc.header_rows with
      | [] => 2
      | hs => hs.foldl Nat.max 0 + 1 }

/-- The record stored for `fingerprint p` after one step. -/
def stepRecord (m : List (String × DedupRecord)) (p : Product) : DedupRecord :=
  match alookup m (fingerprint p) with
  | none => ⟨p, [p.category_name]⟩
  | some ex =>
    if shouldReplace p ex.product then ⟨p, stepCats p ex⟩ else ⟨ex.product, stepCats p ex⟩


/-! ### Concrete inputs used by witnesses and counterexamples -/

/-- Scenario E grid: blank row, brand row `YEALINK`/`JABRA`, header row,
then data. -/
def scenarioE : Grid :=
  { ncols := 4
    rows := [[some "", some "", some "", some ""],
             [some "YEALINK", some "", some "JABRA", some ""],
             [some "Stock Code", some "Price excl VAT", some "Stock Code", some "Price excl VAT"],
             [some "T31G", some "1000", some "EVOLVE-20", some "890"]] }

/-- One data row whose product code is present but whose price cell is the
sentinel `P.O.R`. -/
def gPOR : Grid := { ncols := 2, rows := [[some "X1", some "P.O.R"]] }

/-- Two catalog rows with the same fingerprint, no active special, both out
of stock, different prices/quantities/special-price representations. -/
def cexA : Product :=
  { name := "a", model := "m1", manufacturer := "denon", category_name := "c1"
    price := 10, special_price := none, quantity := 0 }

def cexB : Product :=
  { name := "b", model := "m1", manufacturer := "denon", category_name := "c2"
    price := 5, special_price := some 0, quantity := -1 }

/-- A detected structure whose `YEALINK` mapping puts the product-code
column at index 0; `_validate_structure` accepts it. -/
def s9c : SmartStructure :=
  { layout_type := "horizontal_multi_brand"
    brands_detected := ["YEALINK"]
    column_mapping := [("YEALINK", ⟨some 0, some 1, []⟩)]
    data_start_row := 0
    is_valid := validateStructure ["YEALINK"] [("YEALINK", ⟨some 0, some 1, []⟩)] }

/-! ### Helper lemmas -/

theorem dropWhile_len_le (p : Char → Bool) : ∀ l : List Char, (l.dropWhile p).length ≤ l.length
  | [] => Nat.le_refl _
  | c :: t => by
    rw [List.dropWhile_cons]
    split
    · exact Nat.le_succ_of_le (dropWhile_len_le p t)
    · exact Nat.le_refl _


theorem isPrefixL_length : ∀ (p l : List Char), isPrefixL p l = true → p.length ≤ l.length
  | [], _, _ => Nat.zero_le _
  | _ :: _, [], h => by simp [isPrefixL] at h
  | a :: as, b :: bs, h => by
    simp only [isPrefixL, Bool.and_eq_true] at h
    simpa using isPrefixL_length as bs h.2


theorem matchAvrX_length {l d r} (h : matchAvrX l = some (d, r)) :
    r.length < l.length := by
  unfold matchAvrX at h
  split at h
  case isFalse => exact absurd h (by simp)
  case isTrue hp =>
    have h3 : 3 ≤ l.length := isPrefixL_length _ _ hp
    split at h
    case isFalse => exact absurd h (by simp)
    case isTrue hx =>
      split at h
      · exact absurd h (by simp)
      · have hr : (((l.drop 3).dropWhile isWS).drop 1).dropWhile isDigitA = r := by
          cases h; rfl
        have h1 : 1 ≤ ((l.drop 3).dropWhile isWS).length := isPrefixL_length _ _ hx
        have l0 : ((l.drop 3).dropWhile isWS).length ≤ (l.drop 3).length :=
          dropWhile_len_le _ _
        have l2 : r.length ≤ (((l.drop 3).dropWhile isWS).drop 1).length := by
          rw [← hr]; exact dropWhile_len_le _ _
        rw [List.length_drop] at l2
        rw [List.length_drop] at l0
        omega


theorem matchAvrDashX_length {l d r} (h : matchAvrDashX l = some (d, r)) :
    r.length < l.length := by
  unfold matchAvrDashX at h
  split at h
  case isFalse => exact absurd h (by simp)
  case isTrue hp =>
    have h5 : 5 ≤ l.length := isPrefixL_length _ _ hp
    split at h
    · exact absurd h (by simp)
    · have hr : (l.drop 5).dropWhile isDigitA = r := by cases h; rfl
      have l1 : r.length ≤ (l.drop 5).length := by
        rw [← hr]; exact dropWhile_len_le _ _
      rw [List.length_drop] at l1
      omega


theorem calculatePrices_price_fields (p : ℚ) (config : PricingConfig) :
    (calculatePrices p config).cost_excl_vat = (calcBase p config).cost_excl_vat ∧
    (calculatePrices p config).cost_incl_vat = (calcBase p config).cost_incl_vat ∧
    (calculatePrices p config).retail_incl_vat = (calcBase p config).retail_incl_vat := by
  unfold calculatePrices
  split <;> exact ⟨rfl, rfl, rfl⟩

theorem calcBase_cost_excl (p vat markup : ℚ) (sn cur : String) :
    calcBase p ⟨"cost_excl_vat", vat, markup, sn, cur⟩ =
      { cost_excl_vat := some p, cost_incl_vat := some (p * (1 + vat))
        retail_incl_vat := some (p * (1 + vat) * (1 + markup))
        margin_percentage := none } := by
  simp [calcBase]

theorem calcBase_cost_incl (p vat markup : ℚ) (sn cur : String) :
    calcBase p ⟨"cost_incl_vat", vat, markup, sn, cur⟩ =
      { cost_excl_vat := some (p / (1 + vat)), cost_incl_vat := some p
        retail_incl_vat := some (p * (1 + markup))
        margin_percentage := none } := by
  simp [calcBase]

theorem calcBase_retail_incl (p vat markup : ℚ) (sn cur : String) :
    calcBase p ⟨"retail_incl_vat", vat, markup, sn, cur⟩ =
      { cost_excl_vat := some (p / (1 + markup) / (1 + vat))
        cost_incl_vat := some (p / (1 + markup))
        retail_incl_vat := some p
        margin_percentage := none } := by
  simp [calcBase]


/-! ### Association-list lemmas -/

theorem alookup_append {β : Type} (m₁ m₂ : List (String × β)) (k : String) :
    alookup (m₁ ++ m₂) k =
      match alookup m₁ k with
      | some v => some v
      | none => alookup m₂ k := by
  induction m₁ with
  | nil => rfl
  | cons kv t ih =>
    rcases kv with ⟨k', v⟩
    by_cases h : k' = k <;> simp [alookup, h, ih]

theorem alookup_aupdate_self {β : Type} {m : List (String × β)} {k : String} {w : β}
    (h : alookup m k = some w) (v : β) : alookup (aupdate m k v) k = some v := by
  induction m with
  | nil => simp [alookup] at h
  | cons kv t ih =>
    rcases kv with ⟨k', v'⟩
    by_cases hk : k' = k
    · simp [alookup, aupdate, hk]
    · simp only [alookup, aupdate, if_neg hk] at h ⊢
      exact ih h

theorem alookup_aupdate_ne {β : Type} (m : List (String × β)) {k k' : String}
    (h : k' ≠ k) (v : β) : alookup (aupdate m k v) k' = alookup m k' := by
  induction m with
  | nil => rfl
  | cons kv t ih =>
    rcases kv with ⟨k₀, v₀⟩
    simp only [aupdate]
    by_cases hk : k₀ = k
    · rw [if_pos hk]
      have hne : k₀ ≠ k' := fun hh => h (hh ▸ hk)
      simp only [alookup, if_neg hne]
    · rw [if_neg hk]
      simp only [alookup]
      by_cases hk' : k₀ = k'
      · rw [if_pos hk', if_pos hk']
      · rw [if_neg hk', if_neg hk']
        exact ih

theorem mem_of_alookup {β : Type} {m : List (String × β)} {k : String} {v : β}
    (h : alookup m k = some v) : (k, v) ∈ m := by
  induction m with
  | nil => simp [alookup] at h
  | cons kv t ih =>
    rcases kv with ⟨k', v'⟩
    simp only [alookup] at h
    by_cases hk : k' = k
    · rw [if_pos hk] at h
      injection h with h'
      rw [← hk, ← h']
      exact List.mem_cons_self _ _
    · rw [if_neg hk] at h
      exact List.mem_cons_of_mem _ (ih h)

theorem mem_aupdate {β : Type} {m : List (String × β)} {k : String} {v : β} {x : String × β}
    (h : x ∈ aupdate m k v) : x = (k, v) ∨ x ∈ m := by
  induction m with
  | nil => simp [aupdate] at h
  | cons kv t ih =>
    rcases kv with ⟨k', v'⟩
    by_cases hk : k' = k
    · subst hk
      simp only [aupdate, if_pos rfl] at h
      rcases List.mem_cons.1 h with h | h
      · subst h; exact Or.inl rfl
      · exact Or.inr (List.mem_cons_of_mem _ h)
    · simp only [aupdate, if_neg hk] at h
      rcases List.mem_cons.1 h with h | h
      · subst h; exact Or.inr (List.mem_cons_self _ _)
      · rcases ih h with h | h
        · exact Or.inl h
        · exact Or.inr (List.mem_cons_of_mem _ h)

/-! ### Step and fold characterisations of the deduplication map -/

theorem alookup_append_new {β : Type} (m : List (String × β)) {k : String}
    (hm : alookup m k = none) (v : β) (f : String) :
    alookup (m ++ [(k, v)]) f = if k = f then some v else alookup m f := by
  rw [alookup_append]
  rcases hl : alookup m f with _ | w
  · by_cases hk : k = f <;> simp [alookup, hk, hl]
  · have hk : k ≠ f := by
      intro hh
      rw [hh, hl] at hm
      cases hm
    simp [hk]

theorem alookup_aupdate {β : Type} (m : List (String × β)) {k : String} {w : β}
    (hm : alookup m k = some w) (v : β) (f : String) :
    alookup (aupdate m k v) f = if k = f then some v else alookup m f := by
  by_cases hf : k = f
  · rw [if_pos hf, ← hf]
    exact alookup_aupdate_self hm v
  · rw [if_neg hf]
    exact alookup_aupdate_ne m (fun hh => hf hh.symm) v

theorem alookup_dedupStep (m : List (String × DedupRecord)) (p : Product) (f : String) :
    alookup (dedupStep m p) f =
      if fingerprint p = f then some (stepRecord m p) else alookup m f := by
  unfold dedupStep stepRecord
  rcases hm : alookup m (fingerprint p) with _ | ex <;> simp only [hm]
  · exact alookup_append_new m hm _ f
  · by_cases hsr : shouldReplace p ex.product
    · simp only [if_pos hsr]
      exact alookup_aupdate m hm _ f
    · simp only [if_neg hsr]
      exact alookup_aupdate m hm _ f

theorem cats_sr_ite (b : Prop) [Decidable b] (p q : Product) (s : List String) :
    (if b then (⟨p, s⟩ : DedupRecord) else ⟨q, s⟩).all_categories = s := by
  split <;> rfl

theorem mem_stepCats (p : Product) (ex : DedupRecord) (c : String) :
    c ∈ stepCats p ex ↔ c ∈ ex.all_categories ∨ p.category_name = c := by
  unfold stepCats
  split
  case isTrue hin =>
    constructor
    · exact Or.inl
    · rintro (h | h)
      · exact h
      · exact h ▸ hin
  case isFalse =>
    rw [List.mem_append, List.mem_singleton]
    constructor
    · rintro (h | h)
      · exact Or.inl h
      · exact Or.inr h.symm
    · rintro (h | h)
      · exact Or.inl h
      · exact Or.inr h.symm

theorem mem_stepRecord_cats (m : List (String × DedupRecord)) (p : Product) (c : String) :
    c ∈ (stepRecord m p).all_categories ↔
      CatMem m (fingerprint p) c ∨ p.category_name = c := by
  unfold stepRecord CatMem
  rcases hm : alookup m (fingerprint p) with _ | ex
  · simp only [List.mem_singleton]
    constructor
    · intro h
      exact Or.inr h.symm
    · rintro (⟨r, hr, _⟩ | h)
      · cases hr
      · exact h.symm
  · rw [cats_sr_ite, mem_stepCats]
    constructor
    · rintro (h | h)
      · exact Or.inl ⟨ex, rfl, h⟩
      · exact Or.inr h
    · rintro (⟨r, hr, hcr⟩ | h)
      · injection hr with hr'
        rw [hr']
        exact Or.inl hcr
      · exact Or.inr h

theorem hasfp_dedupStep (m : List (String × DedupRecord)) (p : Product) (f : String) :
    HasFp (dedupStep m p) f ↔ HasFp m f ∨ fingerprint p = f := by
  unfold HasFp
  rw [alookup_dedupStep]
  by_cases hf : fingerprint p = f <;> simp [hf]

theorem catmem_dedupStep (m : List (String × DedupRecord)) (p : Product) (f c : String) :
    CatMem (dedupStep m p) f c ↔
      CatMem m f c ∨ (fingerprint p = f ∧ p.category_name = c) := by
  constructor
  · intro ⟨r, hr, hcr⟩
    rw [alookup_dedupStep] at hr
    by_cases hf : fingerprint p = f
    · rw [if_pos hf] at hr
      injection hr with hr'
      rw [← hr'] at hcr
      rcases (mem_stepRecord_cats m p c).1 hcr with h | h
      · rcases h with ⟨w, hw, hcw⟩
        rw [hf] at hw
        exact Or.inl ⟨w, hw, hcw⟩
      · exact Or.inr ⟨hf, h⟩
    · rw [if_neg hf] at hr
      exact Or.inl ⟨r, hr, hcr⟩
  · intro h
    by_cases hf : fingerprint p = f
    · refine ⟨stepRecord m p, ?_, ?_⟩
      · rw [alookup_dedupStep, if_pos hf]
      · rw [mem_stepRecord_cats]
        rcases h with ⟨r, hr, hcr⟩ | ⟨_, hcat⟩
        · rw [← hf] at hr
          exact Or.inl ⟨r, hr, hcr⟩
        · exact Or.inr hcat
    · rcases h with ⟨r, hr, hcr⟩ | ⟨hc, _⟩
      · refine ⟨r, ?_, hcr⟩
        rw [alookup_dedupStep, if_neg hf]
        exact hr
      · exact absurd hc hf

theorem hasfp_foldl (l : List Product) (m : List (String × DedupRecord)) (f : String) :
    HasFp (l.foldl dedupStep m) f ↔ HasFp m f ∨ ∃ p ∈ l, fingerprint p = f := by
  induction l generalizing m with
  | nil => simp
  | cons p t ih =>
    rw [List.foldl_cons, ih, hasfp_dedupStep]
    constructor
    · rintro ((h | h) | ⟨q, hq, hfq⟩)
      · exact Or.inl h
      · exact Or.inr ⟨p, List.mem_cons_self _ _, h⟩
      · exact Or.inr ⟨q, List.mem_cons_of_mem _ hq, hfq⟩
    · rintro (h | ⟨q, hq, hfq⟩)
      · exact Or.inl (Or.inl h)
      · rcases List.mem_cons.1 hq with rfl | hq
        · exact Or.inl (Or.inr hfq)
        · exact Or.inr ⟨q, hq, hfq⟩

theorem catmem_foldl (l : List Product) (m : List (String × DedupRecord)) (f c : String) :
    CatMem (l.foldl dedupStep m) f c ↔
      CatMem m f c ∨ ∃ p ∈ l, fingerprint p = f ∧ p.category_name = c := by
  induction l generalizing m with
  | nil => simp
  | cons p t ih =>
    rw [List.foldl_cons, ih, catmem_dedupStep]
    constructor
    · rintro ((h | h) | ⟨q, hq, hfq⟩)
      · exact Or.inl h
      · exact Or.inr ⟨p, List.mem_cons_self _ _, h⟩
      · exact Or.inr ⟨q, List.mem_cons_of_mem _ hq, hfq⟩
    · rintro (h | ⟨q, hq, hfq⟩)
      · exact Or.inl (Or.inl h)
      · rcases List.mem_cons.1 hq with rfl | hq
        · exact Or.inl (Or.inr hfq)
        · exact Or.inr ⟨q, hq, hfq⟩

theorem hasfp_dedupMap (l : List Product) (f : String) :
    HasFp (dedupMap l) f ↔ ∃ p ∈ l, fingerprint p = f := by
  rw [dedupMap, hasfp_foldl]
  simp [HasFp, alookup]

theorem catmem_dedupMap (l : List Product) (f c : String) :
    CatMem (dedupMap l) f c ↔ ∃ p ∈ l, fingerprint p = f ∧ p.category_name = c := by
  rw [dedupMap, catmem_foldl]
  simp [CatMem, alookup]

/-! ### Every stored record is one input row (no blending) -/

theorem foldl_product_source (l : List Product) (m : List (String × DedupRecord))
    (R : List Product) (hm : ∀ kv ∈ m, kv.2.product ∈ R) (hl : ∀ p ∈ l, p ∈ R) :
    ∀ kv ∈ l.foldl dedupStep m, kv.2.product ∈ R := by
  induction l generalizing m with
  | nil => exact hm
  | cons p t ih =>
    rw [List.foldl_cons]
    refine ih (dedupStep m p) ?_ fun q hq => hl q (List.mem_cons_of_mem _ hq)
    intro kv hkv
    unfold dedupStep at hkv
    rcases hm' : alookup m (fingerprint p) with _ | ex <;> simp only [hm'] at hkv
    · rcases List.mem_append.1 hkv with h | h
      · exact hm kv h
      · rw [List.mem_singleton] at h
        subst h
        exact hl p (List.mem_cons_self _ _)
    · have hexR : ex.product ∈ R := hm (fingerprint p, ex) (mem_of_alookup hm')
      split at hkv <;> rcases mem_aupdate hkv with rfl | h
      · exact hl p (List.mem_cons_self _ _)
      · exact hm kv h
      · exact hexR
      · exact hm kv h

/-! ### Variant-list membership lemmas -/

theorem mem_dedupNE (l : List String) (seen : List String) (x : String)
    (hx : x ∈ l) (hne : x ≠ "") : x ∈ dedupNE l seen ∨ x ∈ seen := by
  induction l generalizing seen with
  | nil => cases hx
  | cons v t ih =>
    unfold dedupNE
    rcases List.mem_cons.1 hx with rfl | hx'
    · split
      case isTrue h => exact Or.inl (List.mem_cons_self _ _)
      case isFalse h =>
        rcases Decidable.not_and_iff_or_not.1 h with h1 | h2
        · exact absurd (Decidable.not_not.1 h1) hne
        · exact Or.inr (Decidable.not_not.1 h2)
    · split
      case isTrue h =>
        rcases ih (v :: seen) hx' with h1 | h1
        · exact Or.inl (List.mem_cons_of_mem _ h1)
        · rcases List.mem_cons.1 h1 with rfl | h2
          · exact Or.inl (List.mem_cons_self _ _)
          · exact Or.inr h2
      case isFalse h => exact ih seen hx'

theorem subAvrXGo_ne_nil : ∀ {fuel : Nat} {l : List Char}, l ≠ [] → subAvrXGo fuel l ≠ []
  | 0, _, h => h
  | _ + 1, [], h => absurd rfl h
  | _ + 1, c :: cs, _ => by
    rw [subAvrXGo]
    split <;> simp

theorem subAvrDashXGo_ne_nil :
    ∀ {fuel : Nat} {l : List Char}, l ≠ [] → subAvrDashXGo fuel l ≠ []
  | 0, _, h => h
  | _ + 1, [], h => absurd rfl h
  | _ + 1, c :: cs, _ => by
    rw [subAvrDashXGo]
    split <;> simp

theorem toList_eq_nil_iff (s : String) : s.toList = [] ↔ s = "" := by
  cases s with
  | mk l =>
    constructor
    · intro h
      rw [show String.toList ⟨l⟩ = l from rfl] at h
      exact congrArg String.mk h
    · intro h
      rw [h]
      rfl

theorem subAvrX_ne_empty {s : String} (h : s ≠ "") : subAvrX s ≠ "" := by
  intro hc
  have h1 : s.toList ≠ [] := fun hh => h ((toList_eq_nil_iff s).1 hh)
  have h2 : (subAvrX s).toList = [] := (toList_eq_nil_iff _).2 hc
  exact subAvrXGo_ne_nil h1 (by simpa [subAvrX] using h2)

theorem subAvrDashX_ne_empty {s : String} (h : s ≠ "") : subAvrDashX s ≠ "" := by
  intro hc
  have h1 : s.toList ≠ [] := fun hh => h ((toList_eq_nil_iff s).1 hh)
  have h2 : (subAvrDashX s).toList = [] := (toList_eq_nil_iff _).2 hc
  exact subAvrDashXGo_ne_nil h1 (by simpa [subAvrDashX] using h2)

theorem containsStr_source_ne_empty {s t : String} (hne : t ≠ "")
    (h : containsStr s t = true) : s ≠ "" := by
  intro hs
  subst hs
  unfold containsStr containsL at h
  rw [show ("" : String).toList = [] from rfl] at h
  simp only [List.isEmpty_iff] at h
  exact hne ((toList_eq_nil_iff t).1 h)

/-! ### Extraction lemmas -/

theorem mem_foldr_append {α β : Type} (f : α → List β) (l : List α) (x : β) :
    x ∈ l.foldr (fun a acc => f a ++ acc) [] ↔ ∃ a ∈ l, x ∈ f a := by
  induction l with
  | nil => simp
  | cons a t ih =>
    simp only [List.foldr_cons, List.mem_append, ih, List.mem_cons]
    constructor
    · rintro (h | ⟨b, hb, hx⟩)
      · exact ⟨a, Or.inl rfl, h⟩
      · exact ⟨b, Or.inr hb, hx⟩
    · rintro ⟨b, rfl | hb, hx⟩
      · exact Or.inl hx
      · exact Or.inr ⟨b, hb, hx⟩

theorem brand_of_extractRowSmart {g : Grid} {brand : String} {cc pc r : Nat}
    {p : SmartProduct} (h : extractRowSmart g brand cc pc r = some p) :
    p.brand = brand := by
  unfold extractRowSmart at h
  split at h
  · split at h
    · split at h
      · cases h
      · split at h
        · cases h
        · split at h
          · cases h
          · injection h with h'
            rw [← h']
    · cases h
  · cases h

theorem brand_of_extractBrandProducts {g : Grid} {brand : String} {mapping : BrandMapping}
    {startRow : Nat} {p : SmartProduct}
    (h : p ∈ extractBrandProducts g brand mapping startRow) : p.brand = brand := by
  unfold extractBrandProducts at h
  rcases hc : mapping.product_code_column with _ | cc <;> rw [hc] at h
  · cases h
  · rcases hp : mapping.price_column with _ | pc <;> rw [hp] at h
    · cases h
    · rcases List.mem_filterMap.1 h with ⟨r, _, hr⟩
      exact brand_of_extractRowSmart hr

/-! ## Claim theorems -/

/-- C3 (confirmed).  Price round-trip: for every positive parsed price,
`vat_rate ∈ [0,1]` and `markup ≥ 0`, computing the triple with
`_calculate_prices` and re-deriving the source field via the spec's inverse
formula reproduces the parsed number within `1e-6` relative tolerance (the
rational-арithmetic round trip is exact). -/
theorem c3_price_round_trip (p vat markup : ℚ) (sn cur : String)
    (hp : 0 < p) (hv0 : 0 ≤ vat) (hv1 : vat ≤ 1) (hmk : 0 ≤ markup) :
    (∃ q, specInverseSource (calculatePrices p ⟨"cost_excl_vat", vat, markup, sn, cur⟩)
        ⟨"cost_excl_vat", vat, markup, sn, cur⟩ = some q ∧ |q - p| ≤ p / 1000000) ∧
    (∃ q, specInverseSource (calculatePrices p ⟨"cost_incl_vat", vat, markup, sn, cur⟩)
        ⟨"cost_incl_vat", vat, markup, sn, cur⟩ = some q ∧ |q - p| ≤ p / 1000000) ∧
    (∃ q, specInverseSource (calculatePrices p ⟨"retail_incl_vat", vat, markup, sn, cur⟩)
        ⟨"retail_incl_vat", vat, markup, sn, cur⟩ = some q ∧ |q - p| ≤ p / 1000000) := by
  have hv : (1 + vat) ≠ 0 := by positivity
  have hmk' : (1 + markup) ≠ 0 := by positivity
  have htol : (0 : ℚ) ≤ p / 1000000 := by positivity
  refine ⟨⟨p * (1 + vat) / (1 + vat), ?_, ?_⟩,
          ⟨p / (1 + vat) * (1 + vat), ?_, ?_⟩,
          ⟨p / (1 + markup) * (1 + markup), ?_, ?_⟩⟩
  · simp [specInverseSource,
      (calculatePrices_price_fields p ⟨"cost_excl_vat", vat, markup, sn, cur⟩).2.1,
      calcBase_cost_excl]
  · rw [mul_div_cancel_right₀ _ hv]
    simpa using htol
  · simp [specInverseSource,
      (calculatePrices_price_fields p ⟨"cost_incl_vat", vat, markup, sn, cur⟩).1,
      calcBase_cost_incl]
  · rw [div_mul_cancel₀ _ hv]
    simpa using htol
  · simp [specInverseSource,
      (calculatePrices_price_fields p ⟨"retail_incl_vat", vat, markup, sn, cur⟩).2.1,
      calcBase_retail_incl]
  · rw [div_mul_cancel₀ _ hmk']
    simpa using htol

/-- Witness for C3 at Scenario A's numbers. -/
theorem c3_price_round_trip_witness :
    (0 : ℚ) < 1250 ∧ (0 : ℚ) ≤ 3 / 20 ∧ (3 : ℚ) / 20 ≤ 1 ∧ (0 : ℚ) ≤ 2 / 5 ∧
    ((∃ q, specInverseSource (calculatePrices 1250 ⟨"cost_excl_vat", 3 / 20, 2 / 5, "", "ZAR"⟩)
        ⟨"cost_excl_vat", 3 / 20, 2 / 5, "", "ZAR"⟩ = some q ∧ |q - 1250| ≤ 1250 / 1000000) ∧
     (∃ q, specInverseSource (calculatePrices 1250 ⟨"cost_incl_vat", 3 / 20, 2 / 5, "", "ZAR"⟩)
        ⟨"cost_incl_vat", 3 / 20, 2 / 5, "", "ZAR"⟩ = some q ∧ |q - 1250| ≤ 1250 / 1000000) ∧
     (∃ q, specInverseSource (calculatePrices 1250 ⟨"retail_incl_vat", 3 / 20, 2 / 5, "", "ZAR"⟩)
        ⟨"retail_incl_vat", 3 / 20, 2 / 5, "", "ZAR"⟩ = some q ∧ |q - 1250| ≤ 1250 / 1000000)) :=
  ⟨by norm_num, by norm_num, by norm_num, by norm_num,
   c3_price_round_trip 1250 (3 / 20) (2 / 5) "" "ZAR"
     (by norm_num) (by norm_num) (by norm_num) (by norm_num)⟩

/-- C4 (corrected).  `PricingConfig` carries no range validators: a
config with any `vat_rate`/`markup_percentage`, including values outside
`[0,1]` / negative, is constructed and rows are normalized under it. -/
theorem c4_no_config_validation (vat markup p : ℚ) (sn cur : String) :
    (calculatePrices p ⟨"cost_excl_vat", vat, markup, sn, cur⟩).cost_excl_vat = some p ∧
    (calculatePrices p ⟨"cost_excl_vat", vat, markup, sn, cur⟩).cost_incl_vat =
      some (p * (1 + vat)) := by
  have h := calculatePrices_price_fields p ⟨"cost_excl_vat", vat, markup, sn, cur⟩
  constructor
  · rw [h.1, calcBase_cost_excl]
  · rw [h.2.1, calcBase_cost_excl]

/-- Counterexample to C4 as stated: `vat_rate = 2 ∉ [0,1]` and
`markup = -1 < 0`, yet the config is constructed and a row is normalized
under it (no rejection anywhere). -/
theorem c4_counterexample :
    ((2 : ℚ) < 0 ∨ 1 < (2 : ℚ)) ∧ (-1 : ℚ) < 0 ∧
    calculatePrices 100 ⟨"cost_excl_vat", 2, -1, "", "ZAR"⟩ =
      { cost_excl_vat := some 100, cost_incl_vat := some 300
        retail_incl_vat := some 0, margin_percentage := none } := by
  refine ⟨Or.inr (by norm_num), by norm_num, ?_⟩
  unfold calculatePrices
  rw [calcBase_cost_excl]
  norm_num [pyTruthyQ]

/-- C8 (confirmed).  Scenario A: `"1,250.00"` under
`{cost_excl_vat, vat = 0.15, markup = 0.40}` yields
`(1250, 1437.5, 2012.5)` with margin `200/7 ≈ 28.57`. -/
theorem c8_scenario_a :
    parsePriceEngine "1,250.00" = 1250 ∧
    calculatePrices (parsePriceEngine "1,250.00") ⟨"cost_excl_vat", 15 / 100, 40 / 100, "", "ZAR"⟩ =
      { cost_excl_vat := some 1250, cost_incl_vat := some (2875 / 2)
        retail_incl_vat := some (4025 / 2), margin_percentage := some (200 / 7) } ∧
    |(200 : ℚ) / 7 - 2857 / 100| ≤ 1 / 100 := by
  have hp : parsePriceEngine "1,250.00" = ((1250 : ℕ) : ℚ) + ((0 : ℕ) : ℚ) / 10 ^ 2 := rfl
  have h1 : parsePriceEngine "1,250.00" = 1250 := by
    rw [hp]
    norm_num
  refine ⟨h1, ?_, ?_⟩
  · rw [h1]
    unfold calculatePrices
    rw [calcBase_cost_excl]
    norm_num [pyTruthyQ]
  · rw [abs_le]
    constructor <;> norm_num

/-- C5 (corrected).  The `header_row + 2` rule holds for one of the two
cited detector revisions: `ExcelStructureAnalyzer.detect_excel_structure`
sets `data_start_row = brand_row + 2` whenever a brand row is found
(multi-brand / Horizontal classification) — brand row, then header row,
then data — and yields 3 on the Scenario E grid.  The other cited
revision, `SmartColumnDetector._find_brand_headers`, instead sets
`data_start_row = max(header_rows) + 1`, which on Scenario E is 2 (see
the counterexample). -/
theorem c5_data_start_row (g : Grid) (i : Nat) (bs : List (String × Nat))
    (h : findBrandRow g = some (i, bs)) :
    (detectExcelStructure g).layout = "multi_brand" ∧
      (detectExcelStructure g).data_start_row = i + 2 := by
  unfold detectExcelStructure
  rw [h]
  exact ⟨rfl, rfl⟩

/-- Witness for C5: the Scenario E grid (blank row 0, brand row 1 with
YEALINK/JABRA, header row 2) yields `data_start_row = 3`. -/
theorem c5_data_start_row_witness :
    findBrandRow scenarioE = some (1, [("YEALINK", 0), ("JABRA", 2)]) ∧
    (detectExcelStructure scenarioE).layout = "multi_brand" ∧
    (detectExcelStructure scenarioE).data_start_row = 3 :=
  ⟨by decide,
   (c5_data_start_row scenarioE 1 [("YEALINK", 0), ("JABRA", 2)] (by decide)).1,
   (c5_data_start_row scenarioE 1 [("YEALINK", 0), ("JABRA", 2)] (by decide)).2⟩

/-- Counterexample to C5 as stated: on the Scenario E grid, the cited
`SmartColumnDetector._find_brand_headers` finds the brand row at index 1
(its only header row), so `data_start_row = max(header_rows) + 1 = 2`,
not the claimed `header_row + 2 = 3`; `detect_horizontal_structure`
copies this value into the returned structure unchanged.  Extraction from
row 2 would start on the `Stock Code` header row itself. -/
theorem c5_counterexample :
    (findBrandHeaders scenarioE).brands_detected = ["YEALINK", "JABRA"] ∧
    (findBrandHeaders scenarioE).header_rows = [1] ∧
    (findBrandHeaders scenarioE).data_start_row = 2 ∧
    (findBrandHeaders scenarioE).data_start_row ≠ 3 ∧
    (findBrandHeaders scenarioE).data_start_row ≠ 1 + 2 := by
  refine ⟨by decide, by decide, by decide, ?_, ?_⟩ <;>
    · rw [show (findBrandHeaders scenarioE).data_start_row = 2 by decide]
      decide

/-- C7 (corrected).  The extra "model-prefix" variants are generated
only for queries whose normalized form contains the literal `avr`: the
variant list then additionally contains `re.sub(r'avr\s*x(\d+)',
r'avr-x\1')` and `re.sub(r'avr-x(\d+)', r'avrx\1')` of the normalized
query (the second is the normalized query itself, since normalization has
already removed every separator). -/
theorem c7_avr_variants (q : String)
    (h : containsStr (normalizeSearchTerm q) "avr" = true) :
    subAvrX (normalizeSearchTerm q) ∈ createSearchVariants q ∧
    subAvrDashX (normalizeSearchTerm q) ∈ createSearchVariants q := by
  have hnorm : normalizeSearchTerm q ≠ "" :=
    containsStr_source_ne_empty (by decide) h
  have h1 : subAvrX (normalizeSearchTerm q) ≠ "" := subAvrX_ne_empty hnorm
  have h2 : subAvrDashX (normalizeSearchTerm q) ≠ "" := subAvrDashX_ne_empty hnorm
  unfold createSearchVariants
  dsimp only
  rw [if_pos h]
  constructor
  · have hm : subAvrX (normalizeSearchTerm q) ∈
        ([q, q, normalizeSearchTerm q, subWsDash (normalizeSearchTerm q),
          removeDashWs (normalizeSearchTerm q), dashUnderscoreToSpace (normalizeSearchTerm q)] ++
          [subAvrX (normalizeSearchTerm q), subAvrDashX (normalizeSearchTerm q)]) := by
      simp
    rcases mem_dedupNE _ [] _ hm h1 with hin | hin
    · exact hin
    · cases hin
  · have hm : subAvrDashX (normalizeSearchTerm q) ∈
        ([q, q, normalizeSearchTerm q, subWsDash (normalizeSearchTerm q),
          removeDashWs (normalizeSearchTerm q), dashUnderscoreToSpace (normalizeSearchTerm q)] ++
          [subAvrX (normalizeSearchTerm q), subAvrDashX (normalizeSearchTerm q)]) := by
      simp
    rcases mem_dedupNE _ [] _ hm h2 with hin | hin
    · exact hin
    · cases hin

/-- Witness for C7 (Scenario D): `"denon avrx1800h"` contains `avr`, its
dash-inserting variant is `"denon avr-x1800h"`, that variant is in the
variant list, and it is a substring of the lower-cased catalog text
`"Denon AVR-X1800H"` (the SQL `LIKE` match under a case-insensitive
collation). -/
theorem c7_avr_variants_witness :
    containsStr (normalizeSearchTerm "denon avrx1800h") "avr" = true ∧
    subAvrX (normalizeSearchTerm "denon avrx1800h") = "denon avr-x1800h" ∧
    "denon avr-x1800h" ∈ createSearchVariants "denon avrx1800h" ∧
    containsStr (lowerStr "Denon AVR-X1800H") "denon avr-x1800h" = true := by
  refine ⟨by decide, by decide, ?_, by decide⟩
  have h := (c7_avr_variants "denon avrx1800h" (by decide)).1
  rwa [show subAvrX (normalizeSearchTerm "denon avrx1800h") = "denon avr-x1800h" by decide]
    at h

/-- Counterexample to C7 as stated: the normalized query `"rxv685"` has an
alphabetic prefix directly followed by digits, yet the variant set is just
`["rxv685"]` — no separator-toggled variant is generated (the rule is
hard-coded to `avr`). -/
theorem c7_counterexample :
    normalizeSearchTerm "rxv685" = "rxv685" ∧
    createSearchVariants "rxv685" = ["rxv685"] ∧
    ¬ "rxv-685" ∈ createSearchVariants "rxv685" ∧
    ¬ "rx-v685" ∈ createSearchVariants "rxv685" := by
  refine ⟨by decide, by decide, ?_, ?_⟩ <;>
    · rw [show createSearchVariants "rxv685" = ["rxv685"] by decide]
      decide

/-- C6 (corrected).  In `SmartColumnDetector._extract_brand_products`,
every row whose product-code cell is present and non-trivial is retained,
with `parsed_price = _parse_price(price_clean)` — `none` (null) when the
price cell is a sentinel or unparseable; no condition on the price cell can
drop the row. -/
theorem c6_unpriced_rows_retained (g : Grid) (brand : String) (cc pc startRow r : Nat)
    (ad : List (Nat × String)) (s : String)
    (hcc : cc < g.ncols) (hpc : pc < g.ncols)
    (hr1 : startRow ≤ r) (hr2 : r < g.nrows)
    (hcell : g.cell r cc = some s) (hs : stripStr s ≠ "")
    (hnan : lowerStr (stripStr s) ≠ "nan") (hnone : lowerStr (stripStr s) ≠ "none") :
    ({ brand := brand, product_code := stripStr s
       raw_price := priceCleanOf g r pc
       parsed_price := parsePriceSmart (priceCleanOf g r pc)
       row_index := r, code_column := cc, price_column := pc } : SmartProduct) ∈
      extractBrandProducts g brand ⟨some cc, some pc, ad⟩ startRow := by
  have hlow : lowerStr (stripStr s) ≠ "" := by
    intro hc
    apply hs
    have := congrArg (fun t => t.toList.length) hc
    simp only [lowerStr, List.length_map] at this
    rw [show String.toList "" = [] from rfl] at this
    exact (toList_eq_nil_iff _).1 (List.length_eq_zero.1 (by simpa using this))
  have hmem : ¬ lowerStr (stripStr s) ∈ (["nan", "none", ""] : List String) := by
    intro hc
    rcases List.mem_cons.1 hc with hc | hc
    · exact hnan hc
    rcases List.mem_cons.1 hc with hc | hc
    · exact hnone hc
    rcases List.mem_cons.1 hc with hc | hc
    · exact hlow hc
    · cases hc
  unfold extractBrandProducts
  refine List.mem_filterMap.2 ⟨r, ?_, ?_⟩
  · rw [List.mem_range'_1]
    omega
  · unfold extractRowSmart
    rw [if_pos hcc, if_pos hpc, hcell]
    dsimp only
    rw [if_neg hs, if_neg hs, if_neg hmem]

/-- Witness for C6: the row `["X1", "P.O.R"]` is retained by the smart
extractor with a null parsed price. -/
theorem c6_unpriced_rows_retained_witness :
    priceCleanOf gPOR 0 1 = "P.O.R" ∧
    parsePriceSmart "P.O.R" = none ∧
    ({ brand := "YEALINK", product_code := "X1", raw_price := "P.O.R"
       parsed_price := none, row_index := 0, code_column := 0, price_column := 1 } :
        SmartProduct) ∈
      extractBrandProducts gPOR "YEALINK" ⟨some 0, some 1, []⟩ 0 := by
  refine ⟨by decide, by decide, ?_⟩
  have h := c6_unpriced_rows_retained gPOR "YEALINK" 0 1 0 0 [] "X1"
    (by decide) (by decide) (Nat.le_refl 0) (by decide) (by decide)
    (by decide) (by decide) (by decide)
  have he : ({ brand := "YEALINK", product_code := stripStr "X1"
               raw_price := priceCleanOf gPOR 0 1
               parsed_price := parsePriceSmart (priceCleanOf gPOR 0 1)
               row_index := 0, code_column := 0, price_column := 1 } : SmartProduct) =
      { brand := "YEALINK", product_code := "X1", raw_price := "P.O.R"
        parsed_price := none, row_index := 0, code_column := 0, price_column := 1 } := by
    decide
  rwa [he] at h

/-- Counterexample to C6 as stated: `_extract_multi_brand_data` in
`ai_training_engine.py` *drops* the same row (`continue` on the `P.O.R`
sentinel) instead of retaining it with a null price. -/
theorem c6_counterexample :
    gPOR.cell 0 0 = some "X1" ∧ stripStr "X1" ≠ "" ∧
    upperStr "P.O.R" ∈ ["P.O.R", "POA", "CALL"] ∧
    extractMultiBrandData gPOR [("YEALINK", ⟨some 0, some 1, none⟩)] 0
      ⟨"cost_excl_vat", 15 / 100, 40 / 100, "", "ZAR"⟩ = [] := by
  refine ⟨by decide, by decide, by decide, ?_⟩
  unfold extractMultiBrandData
  decide

/-- C9 (confirmed).  If a brand's column mapping stores index `0` for
the product-code or price column, `extract_products_from_structure`'s falsy
test (`not mapping.get(...)`) treats the mapping as incomplete and the
extraction yields no product of that brand, whatever the grid and however
the rest of the structure (including `is_valid = true`) looks. -/
theorem c9_column_zero_conflated (g : Grid) (s : SmartStructure) (b : String)
    (m : BrandMapping) (hlk : alookup s.column_mapping b = some m)
    (h0 : m.product_code_column = some 0 ∨ m.price_column = some 0) :
    (extractProductsFromStructure g s).filter (fun p => p.brand == b) = [] := by
  rw [List.filter_eq_nil_iff]
  intro p hp
  simp only [beq_iff_eq, decide_eq_true_eq]
  intro hbr
  unfold extractProductsFromStructure at hp
  split at hp
  · cases hp
  · rcases (mem_foldr_append _ _ _).1 hp with ⟨a, _, hpa⟩
    unfold brandProductsFor at hpa
    dsimp only at hpa
    by_cases hab : a = b
    · subst hab
      rw [hlk] at hpa
      have hfal : (pyFalsyCol ((some m).getD {}).product_code_column ||
          pyFalsyCol ((some m).getD {}).price_column) = true := by
        rcases h0 with h0 | h0 <;> simp [Option.getD, pyFalsyCol, h0]
      rw [if_pos hfal] at hpa
      cases hpa
    · split at hpa
      · cases hpa
      · exact hab ((brand_of_extractBrandProducts hpa).symm.trans hbr)

/-- Witness for C9: a structure that `_validate_structure` accepts
(`is_valid = true`) but whose `YEALINK` mapping has product-code column 0;
extraction over a grid with a data row yields no YEALINK product. -/
theorem c9_column_zero_conflated_witness :
    validateStructure ["YEALINK"] [("YEALINK", ⟨some 0, some 1, []⟩)] = true ∧
    s9c.is_valid = true ∧
    (extractProductsFromStructure gPOR s9c).filter (fun p => p.brand == "YEALINK") = [] :=
  ⟨by decide, by decide,
   c9_column_zero_conflated gPOR s9c "YEALINK" ⟨some 0, some 1, []⟩ (by decide)
     (Or.inl rfl)⟩

/-- C1 (corrected).  Merge order-independence holds for the fingerprint
set and the fingerprint → category-*set* mapping: permuting the input rows
leaves both invariant.  (The price/stock/special-price components are *not*
invariant — see the counterexample.) -/
theorem c1_category_sets_perm_invariant (l₁ l₂ : List Product) (h : l₁.Perm l₂)
    (f c : String) :
    (HasFp (dedupMap l₁) f ↔ HasFp (dedupMap l₂) f) ∧
      (CatMem (dedupMap l₁) f c ↔ CatMem (dedupMap l₂) f c) := by
  constructor
  · rw [hasfp_dedupMap, hasfp_dedupMap]
    constructor
    · rintro ⟨p, hp, hfp⟩
      exact ⟨p, h.mem_iff.1 hp, hfp⟩
    · rintro ⟨p, hp, hfp⟩
      exact ⟨p, h.mem_iff.2 hp, hfp⟩
  · rw [catmem_dedupMap, catmem_dedupMap]
    constructor
    · rintro ⟨p, hp, hfp⟩
      exact ⟨p, h.mem_iff.1 hp, hfp⟩
    · rintro ⟨p, hp, hfp⟩
      exact ⟨p, h.mem_iff.2 hp, hfp⟩

/-- Witness for C1 at the concrete pair of duplicate rows. -/
theorem c1_category_sets_perm_invariant_witness :
    (HasFp (dedupMap [cexA, cexB]) "denon_m1" ↔ HasFp (dedupMap [cexB, cexA]) "denon_m1") ∧
      (CatMem (dedupMap [cexA, cexB]) "denon_m1" "c1" ↔
        CatMem (dedupMap [cexB, cexA]) "denon_m1" "c1") :=
  c1_category_sets_perm_invariant [cexA, cexB] [cexB, cexA]
    (List.Perm.swap cexB cexA []) "denon_m1" "c1"

/-- Counterexample to C1 as stated: the two orders of the same two rows
(same fingerprint, no active special, both out of stock) give different
price, stock and special-price fields — only the category set agrees. -/
theorem c1_counterexample :
    fingerprint cexA = "denon_m1" ∧ fingerprint cexB = "denon_m1" ∧
    [cexA, cexB].Perm [cexB, cexA] ∧
    (alookup (dedupMap [cexA, cexB]) "denon_m1").map
        (fun r => (r.product.price, r.product.quantity, r.product.special_price)) =
      some (10, 0, none) ∧
    (alookup (dedupMap [cexB, cexA]) "denon_m1").map
        (fun r => (r.product.price, r.product.quantity, r.product.special_price)) =
      some (5, -1, some 0) ∧
    ((10 : ℚ), (0 : ℤ), (none : Option ℚ)) ≠ (5, -1, some 0) :=
  ⟨by decide, by decide, List.Perm.swap cexB cexA [], by decide, by decide, by decide⟩

/-- C2 (corrected).  Tie-break for rows with equal fingerprint and no
active special: when both stock quantities are positive, the incoming row's
price/stock replace the current record's iff its price is strictly lower;
when both are `≤ 0`, the current record is always kept, whatever the
prices. -/
theorem c2_stock_tie_rule (e a : Product) (hfp : fingerprint a = fingerprint e)
    (hes : pyTruthyQ e.special_price = false) (has : pyTruthyQ a.special_price = false)
    (htie : (0 < a.quantity ∧ 0 < e.quantity) ∨ (a.quantity ≤ 0 ∧ e.quantity ≤ 0)) :
    (alookup (dedupMap [e, a]) (fingerprint e)).map
        (fun r => (r.product.price, r.product.quantity)) =
      some (if 0 < a.quantity ∧ 0 < e.quantity ∧ a.price < e.price
            then (a.price, a.quantity) else (e.price, e.quantity)) := by
  have h1 : dedupMap [e, a] = dedupStep [(fingerprint e, ⟨e, [e.category_name]⟩)] a := by
    unfold dedupMap
    rw [List.foldl_cons, List.foldl_cons, List.foldl_nil]
    rfl
  have h2 : alookup [(fingerprint e, (⟨e, [e.category_name]⟩ : DedupRecord))]
      (fingerprint a) = some ⟨e, [e.category_name]⟩ := by
    rw [hfp]
    simp [alookup]
  rw [h1]
  unfold dedupStep
  dsimp only
  rw [h2]
  dsimp only
  rcases htie with ⟨ha1, he1⟩ | ⟨ha0, he0⟩
  · have hne : ¬ e.quantity ≤ 0 := by omega
    by_cases hlt : a.price < e.price
    · have hsr' : shouldReplace a e = true := by
        unfold shouldReplace
        rw [has, hes]
        simp [ha1, he1, hlt, hne]
      rw [hsr']
      simp only [if_true]
      rw [alookup_aupdate _ h2 _ _, hfp, if_pos rfl, if_pos ⟨ha1, he1, hlt⟩]
      rfl
    · have hsr' : shouldReplace a e = false := by
        unfold shouldReplace
        rw [has, hes]
        simp [hlt, hne]
      rw [hsr']
      simp only [Bool.false_eq_true, if_false]
      rw [alookup_aupdate _ h2 _ _, hfp, if_pos rfl,
        if_neg (fun hc => hlt hc.2.2)]
      rfl
  · have hna : ¬ 0 < a.quantity := by omega
    have hsr' : shouldReplace a e = false := by
      unfold shouldReplace
      rw [has, hes]
      simp [hna]
    rw [hsr']
    simp only [Bool.false_eq_true, if_false]
    rw [alookup_aupdate _ h2 _ _, hfp, if_pos rfl,
      if_neg (fun hc => absurd hc.1 hna)]
    rfl

/-- Witness for C2: both rows out of stock, incoming strictly cheaper — the
current record's price/stock are kept. -/
theorem c2_stock_tie_rule_witness :
    fingerprint cexB = fingerprint cexA ∧
    pyTruthyQ cexA.special_price = false ∧ pyTruthyQ cexB.special_price = false ∧
    (cexB.quantity ≤ 0 ∧ cexA.quantity ≤ 0) ∧
    (alookup (dedupMap [cexA, cexB]) (fingerprint cexA)).map
        (fun r => (r.product.price, r.product.quantity)) =
      some (if 0 < cexB.quantity ∧ 0 < cexA.quantity ∧ cexB.price < cexA.price
            then (cexB.price, cexB.quantity) else (cexA.price, cexA.quantity)) :=
  ⟨by decide, by decide, by decide, by decide,
   c2_stock_tie_rule cexA cexB (by decide) (by decide) (by decide)
     (Or.inr ⟨by decide, by decide⟩)⟩

/-- Counterexample to C2 as stated: same fingerprint, no specials, both
stocks `≤ 0`, incoming price `5` strictly below current `10` — rule (d)
says replace, but the code keeps the current record's price/stock. -/
theorem c2_counterexample :
    fingerprint cexB = fingerprint cexA ∧
    pyTruthyQ cexA.special_price = false ∧ pyTruthyQ cexB.special_price = false ∧
    cexA.quantity ≤ 0 ∧ cexB.quantity ≤ 0 ∧ cexB.price < cexA.price ∧
    (alookup (dedupMap [cexA, cexB]) (fingerprint cexA)).map
        (fun r => r.product.price) = some cexA.price ∧
    cexA.price ≠ cexB.price := by
  refine ⟨by decide, by decide, by decide, by decide, by decide, by decide, ?_, by decide⟩
  decide

/-- C10 (confirmed).  No blending: every output record of
`deduplicate_products` is one single input row with the same fingerprint
(in particular its price, special price and stock quantity all come from
that one row); only the category list aggregates across rows. -/
theorem c10_no_blending (l : List Product) (r : OutputProduct)
    (hr : r ∈ deduplicateProducts l) :
    ∃ p ∈ l, r.product = p ∧ fingerprint r.product = fingerprint p ∧
      r.product.price = p.price ∧ r.product.special_price = p.special_price ∧
      r.product.quantity = p.quantity := by
  rcases List.mem_map.1 hr with ⟨kv, hkv, hfin⟩
  have hsrc : kv.2.product ∈ l :=
    foldl_product_source l [] l (by intro kv h; cases h) (fun p hp => hp) kv hkv
  have hprod : r.product = kv.2.product := by
    rw [← hfin]
    rfl
  exact ⟨kv.2.product, hsrc, hprod, by rw [hprod], by rw [hprod], by rw [hprod],
    by rw [hprod]⟩

/-- Witness for C10 on the concrete duplicate pair. -/
theorem c10_no_blending_witness :
    ∃ p ∈ [cexA, cexB],
      (finalizeRecord ⟨cexA, ["c1", "c2"]⟩).product = p ∧
      fingerprint (finalizeRecord ⟨cexA, ["c1", "c2"]⟩).product = fingerprint p ∧
      (finalizeRecord ⟨cexA, ["c1", "c2"]⟩).product.price = p.price ∧
      (finalizeRecord ⟨cexA, ["c1", "c2"]⟩).product.special_price = p.special_price ∧
      (finalizeRecord ⟨cexA, ["c1", "c2"]⟩).product.quantity = p.quantity :=
  c10_no_blending [cexA, cexB] (finalizeRecord ⟨cexA, ["c1", "c2"]⟩) (by decide)

end AIQuoting
